import Mathlib

/-!
Verification of the hikari event-factory core against its specification.

The development shallowly embeds the parts of the source the claims touch:
  - a JSON value model with Python-style dictionary access
    (`payload[k]` raising `KeyError` versus `payload.get(k)` returning `None`),
  - the intent bitflag model (`hikari/intents.py`),
  - the embed field-list state machine (`hikari/embeds.py`),
  - the time codec (`hikari/internal/time.py`),
  - the decode operations of `hikari/impl/event_factory.py`,
  - the cancel-and-drain discipline of `hikari/internal/aio.py`.

Delegated entity decoders (`deserialize_member`, `deserialize_message`, ...)
live outside the provided sources; they are modelled from the specification
as opaque captures of the payload fragment, with the one field the factory
inspects (`Message.guild_id`) decoded the way the spec describes.
-/

namespace Hikari

/-! ## JSON payload model -/

/-- A JSON-native value as delivered in a wire payload: string, number,
boolean, null, nested object or array.  Objects are association lists in
payload order. -/
inductive JValue where
  | null
  | bool (b : Bool)
  | num (n : Int)
  | str (s : String)
  | arr (elems : List JValue)
  | obj (fields : List (String × JValue))

/-- A raw payload: a JSON object, keys are strings. -/
abbrev JObject := List (String × JValue)

/-- First value bound to key `k`, if the key is present at all. -/
def jlookup (o : JObject) (k : String) : Option JValue :=
  match o with
  | [] => none
  | (k', v) :: rest => if k' = k then some v else jlookup rest k

/-- Python `k in payload`. -/
def hasKey (o : JObject) (k : String) : Bool :=
  (jlookup o k).isSome

/-- Python `payload.get(k)`: a missing key and a stored JSON `null` both
come back as the same Python `None`. -/
def pyGet (o : JObject) (k : String) : JValue :=
  (jlookup o k).getD .null

/-- Python `payload[k]`: `none` models the `KeyError` on a missing key; a
stored JSON `null` is returned as a value. -/
def pyIndex (o : JObject) (k : String) : Option JValue :=
  jlookup o k

/-- Python truthiness of a JSON-decoded value (`bool(x)`). -/
def jtruthy : JValue → Bool
  | .null => false
  | .bool b => b
  | .num n => n != 0
  | .str s => !s.isEmpty
  | .arr l => !l.isEmpty
  | .obj l => !l.isEmpty

/-! ## Snowflake identifiers -/

/-- A snowflake id.  `Snowflake(raw)` accepts the decimal string or integer
forms Discord sends. -/
abbrev Snowflake := Int

/-- `Snowflake(v)`: decode an id from a payload value; `none` models the
`TypeError`/`ValueError` raised on a non-integer-like value. -/
def decodeSnowflake : JValue → Option Snowflake
  | .num n => some n
  | .str s => (s.toNat? ).map Int.ofNat
  | .bool b => some (if b then 1 else 0)
  | _ => none

/-! ## Intent bitflag model (`hikari/intents.py`)

An `Intents` value is a bitfield; the named constants below mirror the
single-bit flags and derived unions of the source enum. -/

namespace Intents

def NONE : Nat := 0
def GUILDS : Nat := 1 <<< 0
def GUILD_MEMBERS : Nat := 1 <<< 1
def GUILD_MODERATION : Nat := 1 <<< 2
def GUILD_EMOJIS : Nat := 1 <<< 3
def GUILD_INTEGRATIONS : Nat := 1 <<< 4
def GUILD_WEBHOOKS : Nat := 1 <<< 5
def GUILD_INVITES : Nat := 1 <<< 6
def GUILD_VOICE_STATES : Nat := 1 <<< 7
def GUILD_PRESENCES : Nat := 1 <<< 8
def GUILD_MESSAGES : Nat := 1 <<< 9
def GUILD_MESSAGE_REACTIONS : Nat := 1 <<< 10
def GUILD_MESSAGE_TYPING : Nat := 1 <<< 11
def DM_MESSAGES : Nat := 1 <<< 12
def DM_MESSAGE_REACTIONS : Nat := 1 <<< 13
def DM_MESSAGE_TYPING : Nat := 1 <<< 14
def MESSAGE_CONTENT : Nat := 1 <<< 15
def GUILD_SCHEDULED_EVENTS : Nat := 1 <<< 16
def AUTO_MODERATION_CONFIGURATION : Nat := 1 <<< 20
def AUTO_MODERATION_EXECUTION : Nat := 1 <<< 21
def GUILD_MESSAGE_POLLS : Nat := 1 <<< 24
def DIRECT_MESSAGE_POLLS : Nat := 1 <<< 25

def ALL_GUILDS_UNPRIVILEGED : Nat :=
  GUILDS ||| GUILD_EMOJIS ||| GUILD_INTEGRATIONS ||| GUILD_WEBHOOKS |||
    GUILD_INVITES ||| GUILD_VOICE_STATES ||| GUILD_MESSAGES |||
    GUILD_MESSAGE_REACTIONS ||| GUILD_MESSAGE_TYPING ||| GUILD_MODERATION |||
    GUILD_SCHEDULED_EVENTS ||| GUILD_MESSAGE_POLLS

def ALL_GUILDS_PRIVILEGED : Nat := GUILD_MEMBERS ||| GUILD_PRESENCES

def ALL_GUILDS : Nat := ALL_GUILDS_UNPRIVILEGED ||| ALL_GUILDS_PRIVILEGED

def ALL_DMS : Nat :=
  DM_MESSAGES ||| DM_MESSAGE_TYPING ||| DM_MESSAGE_REACTIONS ||| DIRECT_MESSAGE_POLLS

def ALL_AUTO_MODERATION : Nat :=
  AUTO_MODERATION_CONFIGURATION ||| AUTO_MODERATION_EXECUTION

def ALL_UNPRIVILEGED : Nat := ALL_GUILDS_UNPRIVILEGED ||| ALL_DMS ||| ALL_AUTO_MODERATION

def ALL_PRIVILEGED : Nat := ALL_GUILDS_PRIVILEGED ||| MESSAGE_CONTENT

def ALL : Nat := ALL_UNPRIVILEGED ||| ALL_PRIVILEGED

/-- `Intents.is_privileged`: `bool(self & self.ALL_PRIVILEGED)` — true exactly
when the bitwise intersection with the privileged constant is nonzero. -/
def is_privileged (v : Nat) : Bool := (v &&& ALL_PRIVILEGED) != 0

end Intents

/-! ## Embed field-list state (`hikari/embeds.py`)

Only the `_fields` slot interacts with the claims; the embedding carries the
slot exactly as the source does: `None`, or a mutable list of fields. -/

/-- One embed field (`EmbedField`). -/
structure EmbedField where
  name : String
  value : String
  is_inline : Bool
deriving Repr, DecidableEq

/-- The `Embed` field-list state: `self._fields` is either `None` or a list. -/
structure Embed where
  _fields : Option (List EmbedField)
deriving Repr, DecidableEq

/-- `Embed.__init__` leaves `self._fields = None` ("saves a useless list on
every embed when we do not always need it"). -/
def Embed.new : Embed := ⟨none⟩

/-- `Embed.fields`: `self._fields if self._fields else []` — an empty or
absent list is observed as the empty sequence. -/
def Embed.fields (e : Embed) : List EmbedField :=
  match e._fields with
  | some l => if l.isEmpty then [] else l
  | none => []

/-- `Embed.add_field`: allocate the list on first use, then append. -/
def Embed.add_field (e : Embed) (name value : String) (is_inline : Bool) : Embed :=
  ⟨some (e._fields.getD [] ++ [⟨name, value, is_inline⟩])⟩

/-- Python `del l[i]` with negative-index support; `none` is the
`IndexError` on an out-of-range index. -/
def pyDelAt {α : Type} (l : List α) (i : Int) : Option (List α) :=
  let n : Int := l.length
  let j := if i < 0 then i + n else i
  if 0 ≤ j ∧ j < n then some (l.eraseIdx j.toNat) else none

/-- `Embed.remove_field`: delete only when the list is truthy, then collapse
an emptied list back to `None`. -/
def Embed.remove_field (e : Embed) (index : Int) : Option Embed :=
  match e._fields with
  | some l =>
    if l.isEmpty then some ⟨none⟩
    else
      match pyDelAt l index with
      | some l2 => some ⟨if l2.isEmpty then none else some l2⟩
      | none => none
  | none => some ⟨none⟩

/-- `Embed.clear_fields`: reset the slot to `None`. -/
def Embed.clear_fields (_e : Embed) : Embed := ⟨none⟩

/-! ## Time codec (`hikari/internal/time.py`)

Calendar values are abstracted as exact rational seconds since the UNIX
epoch; CPython float rounding is not modelled (claims that depend on it are
reported separately), but the error behaviour of
`datetime.datetime.fromtimestamp` on this platform is. -/

/-- A timezone-aware UTC datetime, as rational seconds since 1970-01-01. -/
structure UTCDateTime where
  seconds : ℚ
deriving DecidableEq

/-- `datetime.datetime.min` (0001-01-01 00:00:00) in UNIX seconds. -/
def datetimeMin : UTCDateTime := ⟨-62135596800⟩

/-- `datetime.datetime.max` (9999-12-31 23:59:59.999999) in UNIX seconds. -/
def datetimeMax : UTCDateTime := ⟨253402300799 + (999999 : ℚ) / 1000000⟩

/-- Error kinds raised by `fromtimestamp`, split by whether
`unix_epoch_to_datetime` catches them: `caught` stands for the
`OSError`/`ValueError` family, `overflow` for the `OverflowError` raised
when a timestamp exceeds the platform `time_t` range. -/
inductive PyTimeError where
  | caught
  | overflow
deriving DecidableEq, Repr

/-- CPython `datetime.datetime.fromtimestamp(t, timezone.utc)` on this
platform (Linux, 64-bit `time_t`): `OverflowError` beyond the `time_t`
magnitude, `OSError`/`ValueError` when the calendar year falls outside
1..9999, otherwise the datetime. -/
def fromtimestamp (t : ℚ) : Except PyTimeError UTCDateTime :=
  if t < -(2 ^ 63 : ℚ) ∨ (2 ^ 63 : ℚ) < t then .error .overflow
  else if t < datetimeMin.seconds ∨ datetimeMax.seconds < t then .error .caught
  else .ok ⟨t⟩

/-- `unix_epoch_to_datetime`: divide a millisecond epoch down to seconds,
convert, and clamp to `datetime.max`/`datetime.min` when the conversion
raises one of the two caught error types; an `OverflowError` escapes. -/
def unix_epoch_to_datetime (epoch : ℚ) (is_millis : Bool) : Except PyTimeError UTCDateTime :=
  let e := epoch / (if is_millis then 1000 else 1)
  match fromtimestamp e with
  | .ok d => .ok d
  | .error .caught => .ok (if 0 < e then datetimeMax else datetimeMin)
  | .error .overflow => .error .overflow

/-! ## Async task coordination (`hikari/internal/aio.py`)

`first_completed` and `all_of` both run the same `finally` discipline: walk
the futures in argument order, cancel each one that is not yet done and
await it, swallowing only `asyncio.CancelledError`.  The model separates
the primitive's first phase (waiting on the iterator or gatherer, whose
outcome is an input of the model) from that drain loop, which is embedded
operation by operation. -/

/-- How a still-pending operation responds once it is cancelled and awaited:
it terminates with the cancellation, it completes normally anyway (a
coroutine that intercepts the cancellation and returns), or it raises some
other exception. -/
inductive CancelBehavior where
  | toCancelled
  | toValue
  | toError
deriving DecidableEq, Repr

/-- The state of one scheduled future at the moment the coordinating
primitive enters its `finally` block. -/
inductive FutState where
  | done
  | pending (onCancel : CancelBehavior)
deriving DecidableEq, Repr

/-- A future is terminal when it has a result, an exception or a
cancellation set. -/
def FutState.isTerminal : FutState → Bool
  | .done => true
  | .pending _ => false

/-- The shared `finally` loop: `for f in fs: if not f.done() and not
f.cancelled(): f.cancel(); await f` with only `asyncio.CancelledError`
swallowed.  Returns the states after the loop, together with `some ()` when
a cancelled operation raised a foreign exception — which propagates out of
the loop at once, leaving the remaining futures untouched. -/
def cancelAndDrain : List FutState → List FutState × Option Unit
  | [] => ([], none)
  | .done :: rest =>
    let (rs, esc) := cancelAndDrain rest
    (.done :: rs, esc)
  | .pending .toCancelled :: rest =>
    let (rs, esc) := cancelAndDrain rest
    (.done :: rs, esc)
  | .pending .toValue :: rest =>
    let (rs, esc) := cancelAndDrain rest
    (.done :: rs, esc)
  | .pending .toError :: rest => (.done :: rest, some ())

/-- Errors a coordination primitive can raise to its caller. -/
inductive AioError where
  | cancelled
  | timedOut
  | winnerFailed
  | foreign
deriving DecidableEq, Repr

/-- Outcome of `await next(asyncio.as_completed(fs, timeout))` inside
`first_completed`: the first future finished with a value, it raised, the
gatherer itself was cancelled, or the timeout elapsed. -/
inductive FirstOutcome (α : Type) where
  | value (v : α)
  | failed
  | cancelledItself
  | timeout
deriving DecidableEq, Repr

/-- The raise/return mapping of `first_completed` after its `try` block:
exceptions are translated or re-raised, a value leads to `return None`. -/
def firstResult {α : Type} : FirstOutcome α → Except AioError (Option α)
  | .value _ => .ok none
  | .failed => .error .winnerFailed
  | .cancelledItself => .error .cancelled
  | .timeout => .error .timedOut

/-- `first_completed`: run the drain loop over the futures, then (unless the
drain itself raised) deliver the first phase's outcome.  The winning value
is dropped: the function body never returns it, so a normal return is
Python `None`. -/
def first_completed {α : Type} (outcome : FirstOutcome α) (fs : List FutState) :
    List FutState × Except AioError (Option α) :=
  match (cancelAndDrain fs).2 with
  | some _ => ((cancelAndDrain fs).1, .error .foreign)
  | none => ((cancelAndDrain fs).1, firstResult outcome)

/-- Outcome of `await asyncio.wait_for(asyncio.gather(*fs), timeout)` inside
`all_of`: every future finished (results in input order), some future
raised, the gatherer was cancelled, or the timeout elapsed. -/
inductive AllOutcome (α : Type) where
  | values (vs : List α)
  | failed
  | cancelledItself
  | timeout
deriving DecidableEq, Repr

/-- The raise/return mapping of `all_of` after its `try` block. -/
def allResult {α : Type} : AllOutcome α → Except AioError (Option (List α))
  | .values vs => .ok (some vs)
  | .failed => .error .winnerFailed
  | .cancelledItself => .error .cancelled
  | .timeout => .error .timedOut

/-- `all_of`: the same drain loop in its `finally` block (followed by
cancelling and awaiting the already-terminal gatherer, which adds nothing
to the futures' states), then the first phase's outcome. -/
def all_of {α : Type} (outcome : AllOutcome α) (fs : List FutState) :
    List FutState × Except AioError (Option (List α)) :=
  match (cancelAndDrain fs).2 with
  | some _ => ((cancelAndDrain fs).1, .error .foreign)
  | none => ((cancelAndDrain fs).1, allResult outcome)

/-! ## Delegated entity decoders

These collaborators live outside the provided sources; each is modelled
from the spec as an opaque capture of its payload fragment, exposing only
what the factory inspects. -/

/-- Modelled from the spec: the entity-decoder collaborator's
`deserialize_member(fragment, guild_id)` (missing from src); it is an
opaque capability returning a typed member for a payload fragment, so the
model captures the fragment and context verbatim. -/
structure Member where
  fragment : JValue
  guild_id : Option Snowflake

def deserialize_member (fragment : JValue) (guild_id : Option Snowflake) : Member :=
  ⟨fragment, guild_id⟩

/-- Modelled from the spec: `deserialize_member_presence(payload)` (missing
from src), captured opaquely. -/
structure MemberPresence where
  payload : JObject

def deserialize_member_presence (payload : JObject) : MemberPresence :=
  ⟨payload⟩

/-- A message as returned by the entity decoder: the factory inspects only
its `guild_id` attribute. -/
structure Message where
  guild_id : Option Snowflake
  payload : JObject

/-- Modelled from the spec: `deserialize_message(payload)` (missing from
src).  Per the discriminator rule, the returned message's `guild_id` is
populated exactly when the payload carries the `guild_id` key, decoded as a
snowflake (an undecodable value is a decode error). -/
def deserialize_message (payload : JObject) : Option Message :=
  match jlookup payload "guild_id" with
  | none => some ⟨none, payload⟩
  | some v => (decodeSnowflake v).map fun g => ⟨some g, payload⟩

/-- Modelled from the spec: `deserialize_partial_message(payload)` (missing
from src); identical shape to `deserialize_message` for the one field the
factory reads. -/
def deserialize_partial_message (payload : JObject) : Option Message :=
  deserialize_message payload

/-! ## Event factory decode operations (`hikari/impl/event_factory.py`)

Each operation takes the raw payload and returns the typed event, `none`
modelling a decode error (`KeyError`, bad snowflake, ...).  The shard and
app references carry no payload information and are omitted. -/

/-- `MessageCreateEvent`: the guild and DM variants. -/
inductive MessageCreateEvent where
  | guild (message : Message)
  | dm (message : Message)

def MessageCreateEvent.isGuild : MessageCreateEvent → Bool
  | .guild _ => true
  | .dm _ => false

/-- `deserialize_message_create_event`: delegate the whole payload to the
entity decoder, then branch on `message.guild_id is None`. -/
def deserialize_message_create_event (payload : JObject) : Option MessageCreateEvent :=
  (deserialize_message payload).map fun message =>
    if message.guild_id.isNone then .dm message else .guild message

/-- `MessageUpdateEvent`: the guild and DM variants. -/
inductive MessageUpdateEvent where
  | guild (message : Message)
  | dm (message : Message)

def MessageUpdateEvent.isGuild : MessageUpdateEvent → Bool
  | .guild _ => true
  | .dm _ => false

/-- `deserialize_message_update_event`: like message-create, over the
partial-message decoder. -/
def deserialize_message_update_event (payload : JObject) : Option MessageUpdateEvent :=
  (deserialize_partial_message payload).map fun message =>
    if message.guild_id.isNone then .dm message else .guild message

/-- `MessageDeleteEvent`: the guild and DM variants. -/
inductive MessageDeleteEvent where
  | guild (channel_id message_id guild_id : Snowflake)
  | dm (channel_id message_id : Snowflake)
deriving DecidableEq, Repr

def MessageDeleteEvent.isGuild : MessageDeleteEvent → Bool
  | .guild _ _ _ => true
  | .dm _ _ => false

/-- `deserialize_message_delete_event`: extract ids, then branch on
`"guild_id" in payload`. -/
def deserialize_message_delete_event (payload : JObject) : Option MessageDeleteEvent := do
  let channel_id ← pyIndex payload "channel_id" >>= decodeSnowflake
  let message_id ← pyIndex payload "id" >>= decodeSnowflake
  if hasKey payload "guild_id" then
    let guild_id ← pyIndex payload "guild_id" >>= decodeSnowflake
    return .guild channel_id message_id guild_id
  else
    return .dm channel_id message_id

/-- `iso8601_datetime_string_to_datetime`: the external ISO-8601 parser,
modelled as an opaque capture of its string argument (a non-string
argument is a decode error). -/
def iso8601_datetime_string_to_datetime : JValue → Option String
  | .str s => some s
  | _ => none

/-- `PinsUpdateEvent`: the guild and DM variants. -/
inductive PinsUpdateEvent where
  | guild (channel_id guild_id : Snowflake) (last_pin_timestamp : Option String)
  | dm (channel_id : Snowflake) (last_pin_timestamp : Option String)
deriving DecidableEq, Repr

def PinsUpdateEvent.isGuild : PinsUpdateEvent → Bool
  | .guild _ _ _ => true
  | .dm _ _ => false

/-- `deserialize_channel_pins_update_event`: a `last_pin_timestamp` that is
absent or explicitly null both map to no timestamp; only a present
non-null value is time-decoded.  Branch on `"guild_id" in payload`. -/
def deserialize_channel_pins_update_event (payload : JObject) : Option PinsUpdateEvent := do
  let channel_id ← pyIndex payload "channel_id" >>= decodeSnowflake
  let last_pin_timestamp ←
    match pyGet payload "last_pin_timestamp" with
    | .null => pure (none : Option String)
    | v => (iso8601_datetime_string_to_datetime v).map some
  if hasKey payload "guild_id" then
    let guild_id ← pyIndex payload "guild_id" >>= decodeSnowflake
    return .guild channel_id guild_id last_pin_timestamp
  else
    return .dm channel_id last_pin_timestamp

/-- `TypingEvent`: the guild and DM variants. -/
inductive TypingEvent where
  | guild (channel_id guild_id : Snowflake) (timestamp : UTCDateTime) (member : Member)
  | dm (channel_id user_id : Snowflake) (timestamp : UTCDateTime)

def TypingEvent.isGuild : TypingEvent → Bool
  | .guild _ _ _ _ => true
  | .dm _ _ _ => false

/-- `deserialize_typing_start_event`: the timestamp is decoded in seconds
(`is_millis=False`); the guild branch (on `"guild_id" in payload`) decodes
the member via the entity decoder, the DM branch reads `user_id` directly
from the payload. -/
def deserialize_typing_start_event (payload : JObject) : Option TypingEvent := do
  let channel_id ← pyIndex payload "channel_id" >>= decodeSnowflake
  let raw_ts ← pyIndex payload "timestamp"
  let secs ← match raw_ts with | .num n => some n | _ => none
  let timestamp ←
    match unix_epoch_to_datetime (secs : ℚ) false with
    | .ok d => some d
    | .error _ => none
  if hasKey payload "guild_id" then
    let guild_id ← pyIndex payload "guild_id" >>= decodeSnowflake
    let member_fragment ← pyIndex payload "member"
    return .guild channel_id guild_id timestamp (deserialize_member member_fragment (some guild_id))
  else
    let user_id ← pyIndex payload "user_id" >>= decodeSnowflake
    return .dm channel_id user_id timestamp

/-- A reaction emoji name: the payload value taken opaquely (custom emoji)
or wrapped as a `UnicodeEmoji` (built-in emoji). -/
inductive EmojiName where
  | rawName (v : JValue)
  | unicode (v : JValue)

def EmojiName.isUnicode : EmojiName → Bool
  | .rawName _ => false
  | .unicode _ => true

/-- `ReactionAddEvent`: the guild and DM variants. -/
inductive ReactionAddEvent where
  | guild (channel_id message_id guild_id : Snowflake) (member : Member)
      (emoji_id : Option Snowflake) (emoji_name : EmojiName) (is_animated : Bool)
  | dm (channel_id message_id user_id : Snowflake)
      (emoji_id : Option Snowflake) (emoji_name : EmojiName) (is_animated : Bool)

def ReactionAddEvent.isGuild : ReactionAddEvent → Bool
  | .guild _ _ _ _ _ _ _ => true
  | .dm _ _ _ _ _ _ => false

def ReactionAddEvent.emojiName : ReactionAddEvent → EmojiName
  | .guild _ _ _ _ _ n _ => n
  | .dm _ _ _ _ n _ => n

def ReactionAddEvent.emojiId : ReactionAddEvent → Option Snowflake
  | .guild _ _ _ _ i _ _ => i
  | .dm _ _ _ i _ _ => i

/-- `deserialize_message_reaction_add_event`: the emoji id is decoded only
when the raw `id` value is truthy; the name is wrapped as a unicode emoji
when the resulting id is falsy (`None` or a zero snowflake).  The
guild/DM branch is taken on `"member" in payload`, and only the guild
branch reads `guild_id`. -/
def deserialize_message_reaction_add_event (payload : JObject) : Option ReactionAddEvent := do
  let channel_id ← pyIndex payload "channel_id" >>= decodeSnowflake
  let message_id ← pyIndex payload "message_id" >>= decodeSnowflake
  let emoji_v ← pyIndex payload "emoji"
  let emoji_payload ← match emoji_v with | .obj o => some o | _ => none
  let raw_emoji_id := pyGet emoji_payload "id"
  let emoji_id ←
    if jtruthy raw_emoji_id then (decodeSnowflake raw_emoji_id).map some
    else pure (none : Option Snowflake)
  let is_animated := jtruthy (pyGet emoji_payload "animated")
  let name_v ← pyIndex emoji_payload "name"
  let emoji_name :=
    if (match emoji_id with | none => true | some n => n = 0 : Bool)
    then EmojiName.unicode name_v else EmojiName.rawName name_v
  if hasKey payload "member" then
    let guild_id ← pyIndex payload "guild_id" >>= decodeSnowflake
    let member_fragment ← pyIndex payload "member"
    return .guild channel_id message_id guild_id
      (deserialize_member member_fragment (some guild_id)) emoji_id emoji_name is_animated
  else
    let user_id ← pyIndex payload "user_id" >>= decodeSnowflake
    return .dm channel_id message_id user_id emoji_id emoji_name is_animated

/-- `_split_reaction_emoji`: custom emoji (opaque name, decoded id) when the
`id` value is present and non-null, unicode emoji otherwise. -/
def _split_reaction_emoji (emoji_payload : JObject) : Option (Option Snowflake × EmojiName) :=
  match pyGet emoji_payload "id" with
  | .null => (pyIndex emoji_payload "name").map fun name_v => (none, .unicode name_v)
  | v => do
    let emoji_id ← decodeSnowflake v
    let name_v ← pyIndex emoji_payload "name"
    return (some emoji_id, .rawName name_v)

/-- `ReactionDeleteEvent`: the guild and DM variants. -/
inductive ReactionDeleteEvent where
  | guild (user_id guild_id channel_id message_id : Snowflake)
      (emoji_id : Option Snowflake) (emoji_name : EmojiName)
  | dm (user_id channel_id message_id : Snowflake)
      (emoji_id : Option Snowflake) (emoji_name : EmojiName)

def ReactionDeleteEvent.isGuild : ReactionDeleteEvent → Bool
  | .guild _ _ _ _ _ _ => true
  | .dm _ _ _ _ _ => false

/-- `deserialize_message_reaction_remove_event`: split the emoji, then
branch on `"guild_id" in payload`. -/
def deserialize_message_reaction_remove_event (payload : JObject) : Option ReactionDeleteEvent := do
  let channel_id ← pyIndex payload "channel_id" >>= decodeSnowflake
  let message_id ← pyIndex payload "message_id" >>= decodeSnowflake
  let user_id ← pyIndex payload "user_id" >>= decodeSnowflake
  let emoji_v ← pyIndex payload "emoji"
  let emoji_payload ← match emoji_v with | .obj o => some o | _ => none
  let em ← _split_reaction_emoji emoji_payload
  if hasKey payload "guild_id" then
    let guild_id ← pyIndex payload "guild_id" >>= decodeSnowflake
    return .guild user_id guild_id channel_id message_id em.1 em.2
  else
    return .dm user_id channel_id message_id em.1 em.2

/-- `ReactionDeleteAllEvent`: the guild and DM variants. -/
inductive ReactionDeleteAllEvent where
  | guild (guild_id channel_id message_id : Snowflake)
  | dm (channel_id message_id : Snowflake)
deriving DecidableEq, Repr

def ReactionDeleteAllEvent.isGuild : ReactionDeleteAllEvent → Bool
  | .guild _ _ _ => true
  | .dm _ _ => false

/-- `deserialize_message_reaction_remove_all_event`. -/
def deserialize_message_reaction_remove_all_event (payload : JObject) :
    Option ReactionDeleteAllEvent := do
  let channel_id ← pyIndex payload "channel_id" >>= decodeSnowflake
  let message_id ← pyIndex payload "message_id" >>= decodeSnowflake
  if hasKey payload "guild_id" then
    let guild_id ← pyIndex payload "guild_id" >>= decodeSnowflake
    return .guild guild_id channel_id message_id
  else
    return .dm channel_id message_id

/-- `ReactionDeleteEmojiEvent`: the guild and DM variants. -/
inductive ReactionDeleteEmojiEvent where
  | guild (guild_id channel_id message_id : Snowflake)
      (emoji_id : Option Snowflake) (emoji_name : EmojiName)
  | dm (channel_id message_id : Snowflake)
      (emoji_id : Option Snowflake) (emoji_name : EmojiName)

def ReactionDeleteEmojiEvent.isGuild : ReactionDeleteEmojiEvent → Bool
  | .guild _ _ _ _ _ => true
  | .dm _ _ _ _ => false

/-- `deserialize_message_reaction_remove_emoji_event`. -/
def deserialize_message_reaction_remove_emoji_event (payload : JObject) :
    Option ReactionDeleteEmojiEvent := do
  let channel_id ← pyIndex payload "channel_id" >>= decodeSnowflake
  let message_id ← pyIndex payload "message_id" >>= decodeSnowflake
  let emoji_v ← pyIndex payload "emoji"
  let emoji_payload ← match emoji_v with | .obj o => some o | _ => none
  let em ← _split_reaction_emoji emoji_payload
  if hasKey payload "guild_id" then
    let guild_id ← pyIndex payload "guild_id" >>= decodeSnowflake
    return .guild guild_id channel_id message_id em.1 em.2
  else
    return .dm channel_id message_id em.1 em.2

/-- `PollVoteCreateEvent`: a single event type; `guild_id` is an optional
field, not a variant discriminator. -/
structure PollVoteCreateEvent where
  user_id : Snowflake
  channel_id : Snowflake
  message_id : Snowflake
  guild_id : Option Snowflake
  answer_id : JValue

/-- `deserialize_poll_vote_create_event`. -/
def deserialize_poll_vote_create_event (payload : JObject) : Option PollVoteCreateEvent := do
  let user_id ← pyIndex payload "user_id" >>= decodeSnowflake
  let channel_id ← pyIndex payload "channel_id" >>= decodeSnowflake
  let message_id ← pyIndex payload "message_id" >>= decodeSnowflake
  let guild_id ←
    if hasKey payload "guild_id" then (pyIndex payload "guild_id" >>= decodeSnowflake).map some
    else pure (none : Option Snowflake)
  let answer_id ← pyIndex payload "answer_id"
  return ⟨user_id, channel_id, message_id, guild_id, answer_id⟩

/-- `PollVoteDeleteEvent`: a single event type, mirror of the create event. -/
structure PollVoteDeleteEvent where
  user_id : Snowflake
  channel_id : Snowflake
  message_id : Snowflake
  guild_id : Option Snowflake
  answer_id : JValue

/-- `deserialize_poll_vote_delete_event`. -/
def deserialize_poll_vote_delete_event (payload : JObject) : Option PollVoteDeleteEvent := do
  let user_id ← pyIndex payload "user_id" >>= decodeSnowflake
  let channel_id ← pyIndex payload "channel_id" >>= decodeSnowflake
  let message_id ← pyIndex payload "message_id" >>= decodeSnowflake
  let guild_id ←
    if hasKey payload "guild_id" then (pyIndex payload "guild_id" >>= decodeSnowflake).map some
    else pure (none : Option Snowflake)
  let answer_id ← pyIndex payload "answer_id"
  return ⟨user_id, channel_id, message_id, guild_id, answer_id⟩

/-- `GuildMessageCreateEvent.guild_id` (`hikari/events/message_events.py`):
`assert isinstance(guild_id, snowflakes.Snowflake)` on the carried
message's guild id; `none` models the `AssertionError`. -/
def GuildMessageCreateEvent_guild_id (message : Message) : Option Snowflake :=
  match message.guild_id with
  | some g => some g
  | none => none

/-- `GuildMessageUpdateEvent.guild_id`: the same assertion-guarded
accessor on the update event. -/
def GuildMessageUpdateEvent_guild_id (message : Message) : Option Snowflake :=
  match message.guild_id with
  | some g => some g
  | none => none

/-! ## Presence-update decoding (`deserialize_presence_update_event`) -/

/-- A three-state optional field (`UndefinedNoneOr`): the unchanged
sentinel, an explicit null, or a present value.  Two-state
(`UndefinedOr`) fields are modelled as `Option`, `none` being the
sentinel. -/
inductive UNOr (α : Type) where
  | undefined
  | nullVal
  | value (a : α)

/-- The partial user built inline by the factory
(`user_models.PartialUserImpl(...)`), with the factory's exact
field-by-field population. -/
structure PartialUser where
  id : Snowflake
  discriminator : Option JValue
  username : Option JValue
  global_name : Option JValue
  avatar_decoration : UNOr JValue
  avatar_hash : Option JValue
  banner_hash : Option JValue
  accent_color : UNOr Int
  is_bot : Option JValue
  is_system : Option JValue
  flags : Option Int

/-- `PresenceUpdateEvent`: the delegated presence plus the optional partial
user. -/
structure PresenceUpdateEvent where
  presence : MemberPresence
  user : Option PartialUser

/-- The `flags` computation of `deserialize_presence_update_event`:
`UserFlag(user_payload["public_flags"])` only when the key is present,
the unchanged sentinel otherwise. -/
def presence_user_flags (user_payload : JObject) : Option (Option Int) :=
  if hasKey user_payload "public_flags" then
    match pyIndex user_payload "public_flags" with
    | some (.num n) => some (some n)
    | _ => none
  else pure (none : Option Int)

/-- The `accent_color` computation of `deserialize_presence_update_event`:
only decoded when the key is present; a present null stays null, otherwise
`Color(raw)`; absent means the unchanged sentinel. -/
def presence_user_accent_color (user_payload : JObject) : Option (UNOr Int) :=
  if hasKey user_payload "accent_color" then
    match pyIndex user_payload "accent_color" with
    | some .null => some UNOr.nullVal
    | some (.num n) => some (UNOr.value n)
    | _ => none
  else pure UNOr.undefined

/-- `deserialize_presence_update_event`: the user sub-payload is guaranteed
only an `id`; a partial user is built exactly when it has more than one
key.  `discriminator`/`username`/`global_name`/`avatar`/`banner`/`bot`/
`system` use `.get(key, UNDEFINED)`; `public_flags` and `accent_color` are
decoded only when their key is present; `avatar_decoration` is passed the
literal `None`. -/
def deserialize_presence_update_event (payload : JObject) : Option PresenceUpdateEvent := do
  let presence := deserialize_member_presence payload
  let user_v ← pyIndex payload "user"
  let user_payload ← match user_v with | .obj o => some o | _ => none
  if user_payload.length > 1 then
    let discriminator := jlookup user_payload "discriminator"
    let flags ← presence_user_flags user_payload
    let accent_color ← presence_user_accent_color user_payload
    let id ← pyIndex user_payload "id" >>= decodeSnowflake
    let user : PartialUser :=
      { id := id
        discriminator := discriminator
        username := jlookup user_payload "username"
        global_name := jlookup user_payload "global_name"
        avatar_decoration := UNOr.nullVal
        avatar_hash := jlookup user_payload "avatar"
        banner_hash := jlookup user_payload "banner"
        accent_color := accent_color
        is_bot := jlookup user_payload "bot"
        is_system := jlookup user_payload "system"
        flags := flags }
    return ⟨presence, some user⟩
  else
    return ⟨presence, none⟩

/-! ## Theorems -/

/-- Claim C9: for every Intents value `v`, `v.is_privileged` is true if and
only if the bitwise intersection of `v` with the fixed privileged constant
`ALL_PRIVILEGED` — the union of `GUILD_MEMBERS`, `GUILD_PRESENCES` and
`MESSAGE_CONTENT` — is nonzero. -/
theorem is_privileged_iff_nonzero_intersection (v : Nat) :
    Intents.is_privileged v = true ↔
      v &&& (Intents.GUILD_MEMBERS ||| Intents.GUILD_PRESENCES ||| Intents.MESSAGE_CONTENT)
        ≠ 0 := by
  simp [Intents.is_privileged, Intents.ALL_PRIVILEGED, Intents.ALL_GUILDS_PRIVILEGED,
    bne_iff_ne]

/-- A successful Python `del l[i]` on a one-element list yields the empty
list. -/
theorem pyDelAt_singleton {α : Type} (f : α) (i : Int) (l : List α)
    (h : pyDelAt [f] i = some l) : l = [] := by
  unfold pyDelAt at h
  dsimp only at h
  split at h
  · split at h
    · rename_i hi hc
      injection h with h2
      subst h2
      have ht : (i + (List.length [f] : Int)).toNat = 0 := by
        simp only [List.length_cons, List.length_nil] at hc ⊢
        omega
      rw [ht]
      rfl
    · exact Option.noConfusion h
  · split at h
    · rename_i hi hc
      injection h with h2
      subst h2
      have ht : i.toNat = 0 := by
        simp only [List.length_cons, List.length_nil] at hc
        omega
      rw [ht]
      rfl
    · exact Option.noConfusion h

/-- Claim C8: a freshly-constructed embed, a cleared embed, and an embed
whose last field was just removed all observe the same empty `fields`
sequence. -/
theorem fields_empty_state_indistinguishable :
    Embed.new.fields = [] ∧
    (∀ e : Embed, e.clear_fields.fields = []) ∧
    (∀ (e e' : Embed) (f : EmbedField) (i : Int),
      e._fields = some [f] → e.remove_field i = some e' → e'.fields = []) := by
  refine ⟨rfl, fun e => rfl, fun e e' f i hf hr => ?_⟩
  obtain ⟨fo⟩ := e
  simp only at hf
  subst hf
  simp only [Embed.remove_field, List.isEmpty_cons, Bool.false_eq_true, if_false] at hr
  cases hd : pyDelAt [f] i with
  | none => rw [hd] at hr; cases hr
  | some l2 =>
    rw [hd] at hr
    have : l2 = [] := pyDelAt_singleton f i l2 hd
    subst this
    simp only [List.isEmpty_nil, if_true, Option.some.injEq] at hr
    subst hr
    rfl

/-- Claim C8 witness: removing the only field of a one-field embed at a
concrete index. -/
theorem fields_empty_state_indistinguishable_witness :
    Embed.remove_field ⟨some [⟨"n", "v", false⟩]⟩ 0 = some ⟨none⟩ ∧
    Embed.fields ⟨none⟩ = [] :=
  ⟨by decide,
    fields_empty_state_indistinguishable.2.2 ⟨some [⟨"n", "v", false⟩]⟩ ⟨none⟩
      ⟨"n", "v", false⟩ 0 rfl (by decide)⟩

/-- Claim C6 (code bug): `unix_epoch_to_datetime` clamps a too-large but
`time_t`-representable epoch to `datetime.max` (and a too-negative one to
`datetime.min`), but an epoch beyond the `time_t` range escapes with an
uncaught `OverflowError` instead of clamping. -/
theorem unix_epoch_to_datetime_overflow_escapes :
    unix_epoch_to_datetime (2 ^ 73) true = .error .overflow ∧
    unix_epoch_to_datetime (10 ^ 18) true = .ok datetimeMax ∧
    unix_epoch_to_datetime (-(10 ^ 18)) true = .ok datetimeMin := by
  refine ⟨?_, ?_, ?_⟩ <;>
    norm_num [unix_epoch_to_datetime, fromtimestamp, datetimeMin, datetimeMax]

/-- Claim C10: whenever `first_completed` returns normally, the returned
value is Python `None` — the winner's result never reaches the caller. -/
theorem first_completed_returns_none {α : Type} (outcome : FirstOutcome α)
    (fs : List FutState) (r : Option α)
    (h : (first_completed outcome fs).2 = .ok r) : r = none := by
  unfold first_completed at h
  cases hd : (cancelAndDrain fs).2 with
  | none =>
    rw [hd] at h
    cases outcome <;> simp_all [firstResult]
  | some u =>
    rw [hd] at h
    simp at h

/-- Claim C10 witness: a winner carrying the value 42 still yields `None`. -/
theorem first_completed_returns_none_witness :
    (first_completed (FirstOutcome.value (42 : Int)) ([] : List FutState)).2
        = Except.ok (none : Option Int) ∧ (none : Option Int) = none :=
  ⟨by rfl, first_completed_returns_none (FirstOutcome.value 42) [] none (by rfl)⟩

/-- Claim C3 counterexample: with a first phase that raised and two pending
operations, the first of which raises a foreign exception when cancelled,
`first_completed` raises while the second operation is still pending — not
every unfinished operation was drained to a terminal state. -/
theorem coordination_drain_counterexample :
    (first_completed (FirstOutcome.failed : FirstOutcome Unit)
        [FutState.pending .toError, FutState.pending .toCancelled]).2 =
      Except.error AioError.foreign ∧
    ((first_completed (FirstOutcome.failed : FirstOutcome Unit)
        [FutState.pending .toError, FutState.pending .toCancelled]).1.all
        FutState.isTerminal) = false := by
  exact ⟨rfl, rfl⟩

/-- When no pending operation answers cancellation with a foreign
exception, the drain loop terminates every operation and raises nothing of
its own. -/
theorem cancelAndDrain_clean (fs : List FutState)
    (hno : FutState.pending .toError ∉ fs) :
    ((cancelAndDrain fs).1.all FutState.isTerminal) = true ∧
      (cancelAndDrain fs).2 = none := by
  induction fs with
  | nil => exact ⟨rfl, rfl⟩
  | cons f rest ih =>
    simp only [List.mem_cons, not_or] at hno
    have ihr := ih hno.2
    cases f with
    | done =>
      simpa [cancelAndDrain, FutState.isTerminal] using ihr
    | pending cb =>
      cases cb with
      | toCancelled => simpa [cancelAndDrain, FutState.isTerminal] using ihr
      | toValue => simpa [cancelAndDrain, FutState.isTerminal] using ihr
      | toError => exact absurd rfl hno.1

/-- Claim C3 (amended): provided every still-pending operation answers
cancellation by terminating cancelled or completing normally (none raises
a foreign exception during the drain), `first_completed` and `all_of`
leave every operation in a terminal state on every path and deliver
exactly the first phase's outcome. -/
theorem coordination_error_paths_drain {α : Type} (fs : List FutState)
    (hno : FutState.pending .toError ∉ fs) :
    (∀ outcome : FirstOutcome α,
        ((first_completed outcome fs).1.all FutState.isTerminal) = true ∧
        (first_completed outcome fs).2 = firstResult outcome) ∧
    (∀ outcome : AllOutcome α,
        ((all_of outcome fs).1.all FutState.isTerminal) = true ∧
        (all_of outcome fs).2 = allResult outcome) := by
  obtain ⟨ht, he⟩ := cancelAndDrain_clean fs hno
  constructor <;> intro outcome <;>
    simp [first_completed, all_of, he, ht]

/-- Claim C3 witness: a timed-out `first_completed` over one finished and
one cancellable pending operation drains both and raises the timeout. -/
theorem coordination_error_paths_drain_witness :
    ((first_completed (FirstOutcome.timeout : FirstOutcome Unit)
        [FutState.done, FutState.pending .toCancelled]).1.all
        FutState.isTerminal) = true ∧
    (first_completed (FirstOutcome.timeout : FirstOutcome Unit)
        [FutState.done, FutState.pending .toCancelled]).2 =
      Except.error AioError.timedOut :=
  (coordination_error_paths_drain [FutState.done, FutState.pending .toCancelled]
      (by decide)).1 FirstOutcome.timeout

/-- Claim C7: every guild-scoped message event built by the factory's guild
branch carries a present, non-null guild id, so the assertion guarding the
`guild_id` accessor never fires on such a variant. -/
theorem guild_event_guild_id_assertion_never_fires :
    (∀ (payload : JObject) (m : Message),
        deserialize_message_create_event payload = some (.guild m) →
        (GuildMessageCreateEvent_guild_id m).isSome = true) ∧
    (∀ (payload : JObject) (m : Message),
        deserialize_message_update_event payload = some (.guild m) →
        (GuildMessageUpdateEvent_guild_id m).isSome = true) := by
  constructor <;> intro payload m h
  · simp only [deserialize_message_create_event, Option.map_eq_some'] at h
    obtain ⟨m0, _, hfn⟩ := h
    by_cases hg : m0.guild_id.isNone
    · simp [hg] at hfn
    · simp only [hg, if_false, Bool.false_eq_true] at hfn
      injection hfn with hm
      subst hm
      cases hmg : m0.guild_id with
      | none => exact absurd (by simp [hmg]) hg
      | some g => simp [GuildMessageCreateEvent_guild_id, hmg]
  · simp only [deserialize_message_update_event, Option.map_eq_some'] at h
    obtain ⟨m0, _, hfn⟩ := h
    by_cases hg : m0.guild_id.isNone
    · simp [hg] at hfn
    · simp only [hg, if_false, Bool.false_eq_true] at hfn
      injection hfn with hm
      subst hm
      cases hmg : m0.guild_id with
      | none => exact absurd (by simp [hmg]) hg
      | some g => simp [GuildMessageUpdateEvent_guild_id, hmg]

/-- Claim C7 witness: a create payload carrying `guild_id = 123`. -/
theorem guild_event_guild_id_assertion_never_fires_witness :
    (GuildMessageCreateEvent_guild_id
        ⟨some 123, [("guild_id", JValue.num 123)]⟩).isSome = true :=
  guild_event_guild_id_assertion_never_fires.1 [("guild_id", JValue.num 123)]
    ⟨some 123, [("guild_id", JValue.num 123)]⟩ (by rfl)

/-- Claim C1 counterexample: a reaction-add payload that carries the
`guild_id` key but no `member` key decodes successfully to the DM variant,
so the guild_id-key rule does not hold for that operation as stated. -/
theorem guild_id_discriminator_counterexample :
    hasKey [("channel_id", JValue.num 1), ("message_id", JValue.num 2),
        ("user_id", JValue.num 3), ("guild_id", JValue.num 4),
        ("emoji", JValue.obj [("name", JValue.str "x")])] "guild_id" = true ∧
    (deserialize_message_reaction_add_event
        [("channel_id", JValue.num 1), ("message_id", JValue.num 2),
         ("user_id", JValue.num 3), ("guild_id", JValue.num 4),
         ("emoji", JValue.obj [("name", JValue.str "x")])]).map
        ReactionAddEvent.isGuild = some false :=
  ⟨rfl, rfl⟩

/-- Claim C1 (amended): message-create, message-update, message-delete,
channel-pins, typing-start, reaction-remove, reaction-remove-all and
reaction-remove-emoji return the guild-scoped variant exactly when the
payload carries the `guild_id` key; reaction-add instead discriminates on
the `member` key; poll-vote-add and poll-vote-remove return a single event
type whose optional guild-id field is populated exactly when the key is
present. -/
theorem guild_id_discriminator_amended :
    (∀ (payload : JObject) (e : MessageCreateEvent),
        deserialize_message_create_event payload = some e →
        e.isGuild = hasKey payload "guild_id") ∧
    (∀ (payload : JObject) (e : MessageUpdateEvent),
        deserialize_message_update_event payload = some e →
        e.isGuild = hasKey payload "guild_id") ∧
    (∀ (payload : JObject) (e : MessageDeleteEvent),
        deserialize_message_delete_event payload = some e →
        e.isGuild = hasKey payload "guild_id") ∧
    (∀ (payload : JObject) (e : PinsUpdateEvent),
        deserialize_channel_pins_update_event payload = some e →
        e.isGuild = hasKey payload "guild_id") ∧
    (∀ (payload : JObject) (e : TypingEvent),
        deserialize_typing_start_event payload = some e →
        e.isGuild = hasKey payload "guild_id") ∧
    (∀ (payload : JObject) (e : ReactionAddEvent),
        deserialize_message_reaction_add_event payload = some e →
        e.isGuild = hasKey payload "member") ∧
    (∀ (payload : JObject) (e : ReactionDeleteEvent),
        deserialize_message_reaction_remove_event payload = some e →
        e.isGuild = hasKey payload "guild_id") ∧
    (∀ (payload : JObject) (e : ReactionDeleteAllEvent),
        deserialize_message_reaction_remove_all_event payload = some e →
        e.isGuild = hasKey payload "guild_id") ∧
    (∀ (payload : JObject) (e : ReactionDeleteEmojiEvent),
        deserialize_message_reaction_remove_emoji_event payload = some e →
        e.isGuild = hasKey payload "guild_id") ∧
    (∀ (payload : JObject) (e : PollVoteCreateEvent),
        deserialize_poll_vote_create_event payload = some e →
        e.guild_id.isSome = hasKey payload "guild_id") ∧
    (∀ (payload : JObject) (e : PollVoteDeleteEvent),
        deserialize_poll_vote_delete_event payload = some e →
        e.guild_id.isSome = hasKey payload "guild_id") := by
  refine ⟨?_, ?_, ?_, ?_, ?_, ?_, ?_, ?_, ?_, ?_, ?_⟩
  · intro payload e h
    cases hj : jlookup payload "guild_id" with
    | none =>
      simp [deserialize_message_create_event, deserialize_message, hj] at h
      subst h
      simp [MessageCreateEvent.isGuild, hasKey, hj]
    | some v =>
      simp [deserialize_message_create_event, deserialize_message, hj,
        Option.bind_eq_some] at h
      obtain ⟨g, hg, he⟩ := h
      subst he
      simp [MessageCreateEvent.isGuild, hasKey, hj]
  · intro payload e h
    cases hj : jlookup payload "guild_id" with
    | none =>
      simp [deserialize_message_update_event, deserialize_partial_message,
        deserialize_message, hj] at h
      subst h
      simp [MessageUpdateEvent.isGuild, hasKey, hj]
    | some v =>
      simp [deserialize_message_update_event, deserialize_partial_message,
        deserialize_message, hj, Option.bind_eq_some] at h
      obtain ⟨g, hg, he⟩ := h
      subst he
      simp [MessageUpdateEvent.isGuild, hasKey, hj]
  · intro payload e h
    cases hk : hasKey payload "guild_id"
    all_goals simp [deserialize_message_delete_event, hk, Option.bind_eq_some] at h
    · obtain ⟨cid, hcid, mid, hmid, he⟩ := h
      subst he
      rfl
    · obtain ⟨cid, hcid, mid, hmid, gid, hgid, he⟩ := h
      subst he
      rfl
  · intro payload e h
    cases hk : hasKey payload "guild_id"
    all_goals simp [deserialize_channel_pins_update_event, hk, Option.bind_eq_some] at h
    · obtain ⟨cid, hcid, h⟩ := h
      split at h
      · simp only [Option.some.injEq] at h
        subst h
        rfl
      · simp only [Option.bind_eq_some, Option.some.injEq] at h
        obtain ⟨y, hy, he⟩ := h
        subst he
        rfl
    · obtain ⟨cid, hcid, h⟩ := h
      split at h
      · simp only [Option.bind_eq_some, Option.some.injEq] at h
        obtain ⟨gid, hgid, he⟩ := h
        subst he
        rfl
      · simp only [Option.bind_eq_some, Option.some.injEq] at h
        obtain ⟨y, hy, gid, hgid, he⟩ := h
        subst he
        rfl
  · intro payload e h
    cases hk : hasKey payload "guild_id"
    all_goals simp [deserialize_typing_start_event, hk, Option.bind_eq_some] at h
    · obtain ⟨cid, hcid, rt, hrt, h⟩ := h
      split at h
      · split at h
        · simp only [Option.bind_eq_some, Option.some.injEq] at h
          obtain ⟨uid, huid, he⟩ := h
          subst he
          rfl
        · exact absurd h (by simp)
      · exact absurd h (by simp)
    · obtain ⟨cid, hcid, rt, hrt, h⟩ := h
      split at h
      · split at h
        · simp only [Option.bind_eq_some, Option.some.injEq] at h
          obtain ⟨gid, hgid, mf, hmf, he⟩ := h
          subst he
          rfl
        · exact absurd h (by simp)
      · exact absurd h (by simp)
  · intro payload e h
    cases hk : hasKey payload "member"
    all_goals simp [deserialize_message_reaction_add_event, hk, Option.bind_eq_some] at h
    · obtain ⟨cid, hcid, mid, hmid, ev, hev, h⟩ := h
      split at h
      · split at h
        · simp only [Option.bind_eq_some, Option.map_eq_some', Option.some.injEq] at h
          obtain ⟨eid, heid, nm, hnm, uid, huid, he⟩ := h
          subst he
          rfl
        · simp only [Option.bind_eq_some, Option.some.injEq] at h
          obtain ⟨nm, hnm, uid, huid, he⟩ := h
          subst he
          rfl
      · exact absurd h (by simp)
    · obtain ⟨cid, hcid, mid, hmid, ev, hev, h⟩ := h
      split at h
      · split at h
        · simp only [Option.bind_eq_some, Option.map_eq_some', Option.some.injEq] at h
          obtain ⟨eid, heid, nm, hnm, gid, hgid, mf, hmf, he⟩ := h
          subst he
          rfl
        · simp only [Option.bind_eq_some, Option.some.injEq] at h
          obtain ⟨nm, hnm, gid, hgid, mf, hmf, he⟩ := h
          subst he
          rfl
      · exact absurd h (by simp)
  · intro payload e h
    cases hk : hasKey payload "guild_id"
    all_goals simp [deserialize_message_reaction_remove_event, hk, Option.bind_eq_some] at h
    · obtain ⟨cid, hcid, mid, hmid, uid, huid, ev, hev, h⟩ := h
      split at h
      · simp only [Option.bind_eq_some, Option.some.injEq] at h
        obtain ⟨em, hem, he⟩ := h
        subst he
        rfl
      · exact absurd h (by simp)
    · obtain ⟨cid, hcid, mid, hmid, uid, huid, ev, hev, h⟩ := h
      split at h
      · simp only [Option.bind_eq_some, Option.some.injEq] at h
        obtain ⟨em, hem, gid, hgid, he⟩ := h
        subst he
        rfl
      · exact absurd h (by simp)
  · intro payload e h
    cases hk : hasKey payload "guild_id"
    all_goals simp [deserialize_message_reaction_remove_all_event, hk,
      Option.bind_eq_some] at h
    · obtain ⟨cid, hcid, mid, hmid, he⟩ := h
      subst he
      rfl
    · obtain ⟨cid, hcid, mid, hmid, gid, hgid, he⟩ := h
      subst he
      rfl
  · intro payload e h
    cases hk : hasKey payload "guild_id"
    all_goals simp [deserialize_message_reaction_remove_emoji_event, hk,
      Option.bind_eq_some] at h
    · obtain ⟨cid, hcid, mid, hmid, ev, hev, h⟩ := h
      split at h
      · simp only [Option.bind_eq_some, Option.some.injEq] at h
        obtain ⟨em, hem, he⟩ := h
        subst he
        rfl
      · exact absurd h (by simp)
    · obtain ⟨cid, hcid, mid, hmid, ev, hev, h⟩ := h
      split at h
      · simp only [Option.bind_eq_some, Option.some.injEq] at h
        obtain ⟨em, hem, gid, hgid, he⟩ := h
        subst he
        rfl
      · exact absurd h (by simp)
  · intro payload e h
    cases hk : hasKey payload "guild_id"
    all_goals simp [deserialize_poll_vote_create_event, hk, Option.bind_eq_some] at h
    · obtain ⟨uid, huid, cid, hcid, mid, hmid, aid, haid, he⟩ := h
      subst he
      rfl
    · obtain ⟨uid, huid, cid, hcid, mid, hmid, gid, hgid, aid, haid, he⟩ := h
      subst he
      obtain ⟨a, ha, b, hb, hg⟩ := hgid
      subst hg
      rfl
  · intro payload e h
    cases hk : hasKey payload "guild_id"
    all_goals simp [deserialize_poll_vote_delete_event, hk, Option.bind_eq_some] at h
    · obtain ⟨uid, huid, cid, hcid, mid, hmid, aid, haid, he⟩ := h
      subst he
      rfl
    · obtain ⟨uid, huid, cid, hcid, mid, hmid, gid, hgid, aid, haid, he⟩ := h
      subst he
      obtain ⟨a, ha, b, hb, hg⟩ := hgid
      subst hg
      rfl

/-- Claim C1 witness: message-delete at a concrete guild payload takes the
guild branch. -/
theorem guild_id_discriminator_amended_witness :
    MessageDeleteEvent.isGuild (.guild 1 2 4) =
      hasKey [("channel_id", JValue.num 1), ("id", JValue.num 2),
        ("guild_id", JValue.num 4)] "guild_id" :=
  guild_id_discriminator_amended.2.2.1
    [("channel_id", JValue.num 1), ("id", JValue.num 2), ("guild_id", JValue.num 4)]
    (.guild 1 2 4) (by rfl)

/-- Claim C5 counterexample: an emoji fragment whose `id` field is present
but null yields the unicode-emoji result, not the custom-emoji result the
claim promises for a present `id`. -/
theorem emoji_branch_counterexample :
    hasKey [("id", JValue.null), ("name", JValue.str "x")] "id" = true ∧
    (_split_reaction_emoji [("id", JValue.null), ("name", JValue.str "x")]).map
        (fun em => em.2.isUnicode) = some true :=
  ⟨rfl, rfl⟩

/-- Claim C5 (amended): `_split_reaction_emoji` produces the custom-emoji
result (snowflake id, opaque name) exactly when the `id` value is present
and non-null, and the unicode result otherwise; reaction-add's inline
decoding instead requires the raw `id` to be truthy, and wraps the name as
unicode whenever the resulting id is falsy (absent or a zero snowflake). -/
theorem emoji_branch_amended :
    (∀ (o : JObject) (em : Option Snowflake × EmojiName),
        _split_reaction_emoji o = some em →
        (pyGet o "id" = JValue.null → em.1 = none ∧ em.2.isUnicode = true) ∧
        (pyGet o "id" ≠ JValue.null → em.1.isSome = true ∧ em.2.isUnicode = false)) ∧
    (∀ (payload : JObject) (o : JObject) (e : ReactionAddEvent),
        pyIndex payload "emoji" = some (.obj o) →
        deserialize_message_reaction_add_event payload = some e →
        (jtruthy (pyGet o "id") = false →
          e.emojiId = none ∧ e.emojiName.isUnicode = true) ∧
        (∀ n : Snowflake, jtruthy (pyGet o "id") = true →
          decodeSnowflake (pyGet o "id") = some n →
          e.emojiId = some n ∧ (e.emojiName.isUnicode = true ↔ n = 0))) := by
  constructor
  · intro o em h
    unfold _split_reaction_emoji at h
    constructor
    · intro hnull
      rw [hnull] at h
      simp only [Option.map_eq_some'] at h
      obtain ⟨nm, hnm, he⟩ := h
      subst he
      exact ⟨rfl, rfl⟩
    · intro hnn
      split at h
      · exact absurd rfl (by rename_i heq; rw [heq] at hnn; exact hnn)
      · simp [Option.bind_eq_some] at h
        obtain ⟨sf, hsf, nm, hnm, he⟩ := h
        subst he
        exact ⟨rfl, rfl⟩
  · intro payload o e ho h
    cases hk : hasKey payload "member"
    all_goals simp [deserialize_message_reaction_add_event, hk, Option.bind_eq_some] at h
    all_goals obtain ⟨cid, hcid, mid, hmid, ev, hev, h⟩ := h
    · split at h
      · rename_i o2
        rw [ho] at hev
        injection hev with hev2
        injection hev2 with hev3
        subst hev3
        split at h
        · rename_i htr
          simp [Option.bind_eq_some, Option.map_eq_some'] at h
          obtain ⟨eid, heid, nm, hnm, uid, huid, he⟩ := h
          subst he
          have heq : decodeSnowflake (pyGet o "id") = some eid := heid
          constructor
          · intro hfalse
            rw [htr] at hfalse
            cases hfalse
          · intro n _ hdec
            rw [heq] at hdec
            injection hdec with hdec2
            subst hdec2
            refine ⟨rfl, ?_⟩
            by_cases hz : eid = 0
            · subst hz
              simp [ReactionAddEvent.emojiName, EmojiName.isUnicode]
            · simp [ReactionAddEvent.emojiName, EmojiName.isUnicode, hz]
        · rename_i htr
          simp [Option.bind_eq_some] at h
          obtain ⟨nm, hnm, uid, huid, he⟩ := h
          subst he
          constructor
          · intro _
            exact ⟨rfl, rfl⟩
          · intro n htrue _
            rw [htrue] at htr
            exact absurd rfl htr
      · exact absurd h (by simp)
    · split at h
      · rename_i o2
        rw [ho] at hev
        injection hev with hev2
        injection hev2 with hev3
        subst hev3
        split at h
        · rename_i htr
          simp [Option.bind_eq_some, Option.map_eq_some'] at h
          obtain ⟨eid, heid, nm, hnm, gid, hgid, mf, hmf, he⟩ := h
          subst he
          have heq : decodeSnowflake (pyGet o "id") = some eid := heid
          constructor
          · intro hfalse
            rw [htr] at hfalse
            cases hfalse
          · intro n _ hdec
            rw [heq] at hdec
            injection hdec with hdec2
            subst hdec2
            refine ⟨rfl, ?_⟩
            by_cases hz : eid = 0
            · subst hz
              simp [ReactionAddEvent.emojiName, EmojiName.isUnicode]
            · simp [ReactionAddEvent.emojiName, EmojiName.isUnicode, hz]
        · rename_i htr
          simp [Option.bind_eq_some] at h
          obtain ⟨nm, hnm, gid, hgid, mf, hmf, he⟩ := h
          subst he
          constructor
          · intro _
            exact ⟨rfl, rfl⟩
          · intro n htrue _
            rw [htrue] at htr
            exact absurd rfl htr
      · exact absurd h (by simp)

/-- Claim C5 witness: a present non-null emoji id at a concrete fragment
takes the custom-emoji branch of `_split_reaction_emoji`. -/
theorem emoji_branch_amended_witness :
    (Option.isSome (some (5 : Snowflake)) = true ∧
      EmojiName.isUnicode (.rawName (JValue.str "x")) = false) :=
  (emoji_branch_amended.1 [("id", JValue.num 5), ("name", JValue.str "x")]
    (some 5, .rawName (JValue.str "x")) rfl).2 (by intro hq; cases hq)

/-- Claim C2 counterexample: for the two-key user fragment
`id=5, username="x"` the factory builds a partial user whose omitted
`avatar_decoration` field is the literal null, not the unchanged sentinel
the claim promises for every omitted field. -/
theorem presence_partial_user_counterexample :
    ((deserialize_presence_update_event
        [("user", JValue.obj [("id", JValue.num 5), ("username", JValue.str "x")])]).map
      fun e => e.user.map fun u => u.avatar_decoration) = some (some UNOr.nullVal) ∧
    (UNOr.nullVal : UNOr JValue) ≠ UNOr.undefined :=
  ⟨rfl, fun hq => UNOr.noConfusion hq⟩

/-- Claim C2 (amended): a user fragment with at most one key yields no
partial user; a fragment with more than one key yields a partial user
whose present fields take the payload values and whose omitted fields
carry the unchanged sentinel — with the exception of `avatar_decoration`,
which is unconditionally set to null. -/
theorem presence_partial_user_amended :
    ∀ (payload up : JObject) (e : PresenceUpdateEvent),
      pyIndex payload "user" = some (.obj up) →
      deserialize_presence_update_event payload = some e →
      (up.length ≤ 1 → e.user = none) ∧
      (∀ u, e.user = some u →
        u.discriminator = jlookup up "discriminator" ∧
        u.username = jlookup up "username" ∧
        u.global_name = jlookup up "global_name" ∧
        u.avatar_hash = jlookup up "avatar" ∧
        u.banner_hash = jlookup up "banner" ∧
        u.is_bot = jlookup up "bot" ∧
        u.is_system = jlookup up "system" ∧
        (hasKey up "public_flags" = false → u.flags = none) ∧
        (hasKey up "accent_color" = false → u.accent_color = UNOr.undefined) ∧
        u.avatar_decoration = UNOr.nullVal) ∧
      (1 < up.length → e.user.isSome = true) := by
  intro payload up e ho h
  unfold deserialize_presence_update_event at h
  rw [ho] at h
  simp only [Option.bind_eq_bind, Option.some_bind] at h
  split at h
  · rename_i hlen
    simp only [Option.bind_eq_some, Option.pure_def] at h
    obtain ⟨fl, hfl, ac, hac, idv, hidv, he⟩ := h
    injection he with he2
    subst he2
    refine ⟨fun hle => absurd hlen (by omega), fun u hu => ?_, fun _ => rfl⟩
    injection hu with hu2
    subst hu2
    refine ⟨rfl, rfl, rfl, rfl, rfl, rfl, rfl, ?_, ?_, rfl⟩
    · intro hnk
      unfold presence_user_flags at hfl
      rw [hnk] at hfl
      simp at hfl
      exact hfl.symm
    · intro hnk
      unfold presence_user_accent_color at hac
      rw [hnk] at hac
      simp at hac
      exact hac.symm
  · rename_i hlen
    injection h with h2
    subst h2
    refine ⟨fun _ => rfl, fun u hu2 => ?_, fun hgt => absurd hgt hlen⟩
    simp at hu2

/-- Claim C2 witness: the two-key fragment `id=5, username="x"` produces a
partial user whose username is the payload value. -/
theorem presence_partial_user_amended_witness :
    PartialUser.username
        ⟨5, none, some (JValue.str "x"), none, UNOr.nullVal, none, none,
          UNOr.undefined, none, none, none⟩ =
      jlookup [("id", JValue.num 5), ("username", JValue.str "x")] "username" :=
  ((presence_partial_user_amended
      [("user", JValue.obj [("id", JValue.num 5), ("username", JValue.str "x")])]
      [("id", JValue.num 5), ("username", JValue.str "x")]
      ⟨⟨[("user", JValue.obj [("id", JValue.num 5), ("username", JValue.str "x")])]⟩,
        some ⟨5, none, some (JValue.str "x"), none, UNOr.nullVal, none, none,
          UNOr.undefined, none, none, none⟩⟩
      rfl (by rfl)).2.1
    ⟨5, none, some (JValue.str "x"), none, UNOr.nullVal, none, none,
      UNOr.undefined, none, none, none⟩ rfl).2.1

end Hikari
